import Mathlib

/-!
Verification of the faster-than-light2 automation engine against its
specification.  The Python sources under src/ftl2 are shallowly embedded:
pure functions become Lean functions, the gate message loop becomes a step
function over an incoming message list, the state store becomes explicit
state passing over a JSON data model with an abstract file system.
Components of the repository that are referenced but whose source file is
absent (ftl2.refs, ftl2.types, ftl2.message) are modelled from the spec and
marked as such in their doc comments.
-/

namespace Ftl2

/-! ## JSON data model

Models the Python objects that flow through json.dumps / json.loads.
Simplification: JSON numbers are restricted to integers (the state file and
gate payloads in this repository only carry integers and strings).
Object fields keep insertion order, as Python dicts do. -/

inductive Json where
  | null
  | bool (b : Bool)
  | num (n : Int)
  | str (s : String)
  | arr (xs : List Json)
  | obj (kvs : List (String × Json))

/-- Python truthiness of a JSON value (bool(x)): None, False, 0, empty
string, empty list and empty dict are falsy. -/
def pyTruthy : Json → Bool
  | .null => false
  | .bool b => b
  | .num n => n != 0
  | .str s => s != ""
  | .arr xs => !xs.isEmpty
  | .obj kvs => !kvs.isEmpty

/-- Python truthiness of an optional value (None is falsy). -/
def pyTruthyOpt : Option Json → Bool
  | none => false
  | some j => pyTruthy j

/-- Python a or b for optional JSON values. -/
def pyOrOpt (a b : Option Json) : Option Json :=
  if pyTruthyOpt a then a else b

/-! ### Dict helpers (Python dict semantics on association lists) -/

/-- d.get(k): first binding of k. -/
def dictGet {α : Type} (d : List (String × α)) (k : String) : Option α :=
  (d.find? (fun p => p.1 == k)).map (fun p => p.2)

/-- d[k] = v: replace the binding in place if the key exists, else append
(Python dict assignment keeps insertion order). -/
def dictSet {α : Type} (d : List (String × α)) (k : String) (v : α) :
    List (String × α) :=
  if d.any (fun p => p.1 == k) then
    d.map (fun p => if p.1 == k then (k, v) else p)
  else
    d ++ [(k, v)]

/-- d.update(u): assign every binding of u into d in order. -/
def dictUpdate {α : Type} (d u : List (String × α)) : List (String × α) :=
  u.foldl (fun acc p => dictSet acc p.1 p.2) d

/-- Field access on a JSON object; anything else has no fields. -/
def jget (j : Json) (k : String) : Option Json :=
  match j with
  | .obj kvs => dictGet kvs k
  | _ => none

/-- Field assignment on a JSON object; other shapes are left unchanged
(the Python code would raise there; the theorems never rely on this case). -/
def jset (j : Json) (k : String) (v : Json) : Json :=
  match j with
  | .obj kvs => .obj (dictSet kvs k v)
  | _ => j

/-! ## Serializer: json.dumps

Two renderings are used by the code: json.dumps(data, indent=2) for the
state file and plain json.dump(args) (separators ", " and ": ") for gate
argument payloads.  ensure_ascii=True is the Python default: characters
outside 0x20..0x7e are escaped, using surrogate pairs above 0xffff. -/

/-- Lowercase hex digit. -/
def hexDigit (n : Nat) : Char :=
  if n < 10 then Char.ofNat (48 + n) else Char.ofNat (87 + n)

/-- Four lowercase hex digits, as in the json module escapes. -/
def hex4 (n : Nat) : String :=
  String.mk [hexDigit (n / 4096 % 16), hexDigit (n / 256 % 16),
             hexDigit (n / 16 % 16), hexDigit (n % 16)]

/-- Escape one character as the json module does with ensure_ascii=True. -/
def escapeChar (c : Char) : String :=
  let n := c.toNat
  if c = '"' then "\\\""
  else if c = '\\' then "\\\\"
  else if c = '\n' then "\\n"
  else if c = '\t' then "\\t"
  else if c = '\r' then "\\r"
  else if n = 8 then "\\b"
  else if n = 12 then "\\f"
  else if 32 ≤ n ∧ n ≤ 126 then String.mk [c]
  else if n < 65536 then "\\u" ++ hex4 n
  else
    let m := n - 65536
    "\\u" ++ hex4 (55296 + m / 1024) ++ "\\u" ++ hex4 (56320 + m % 1024)

/-- A JSON string literal with escapes. -/
def quoteStr (s : String) : String :=
  "\"" ++ String.join (s.data.map escapeChar) ++ "\""

/-- n spaces. -/
def sp (n : Nat) : String :=
  String.mk (List.replicate n ' ')

/-- JSON integer literal. -/
def numRepr (n : Int) : String := toString n

mutual

/-- json.dumps(v, indent=2), rendered at nesting depth d. -/
def dumps2V : Nat → Json → String
  | _, .null => "null"
  | _, .bool true => "true"
  | _, .bool false => "false"
  | _, .num n => numRepr n
  | _, .str s => quoteStr s
  | _, .arr [] => "[]"
  | d, .arr (x :: xs) =>
      "[\n" ++ sp (2 * (d + 1)) ++ dumps2V (d + 1) x ++
      dumps2Arr (d + 1) xs ++ "\n" ++ sp (2 * d) ++ "]"
  | _, .obj [] => "\x7b\x7d"
  | d, .obj ((k, v) :: kvs) =>
      "\x7b\n" ++ sp (2 * (d + 1)) ++ quoteStr k ++ ": " ++
      dumps2V (d + 1) v ++ dumps2Obj (d + 1) kvs ++ "\n" ++ sp (2 * d) ++ "\x7d"

/-- Remaining array items in indent-2 mode. -/
def dumps2Arr : Nat → List Json → String
  | _, [] => ""
  | d, x :: xs => ",\n" ++ sp (2 * d) ++ dumps2V d x ++ dumps2Arr d xs

/-- Remaining object items in indent-2 mode. -/
def dumps2Obj : Nat → List (String × Json) → String
  | _, [] => ""
  | d, (k, v) :: kvs =>
      ",\n" ++ sp (2 * d) ++ quoteStr k ++ ": " ++ dumps2V d v ++
      dumps2Obj d kvs

end

/-- json.dumps(v, indent=2). -/
def dumps2 (v : Json) : String := dumps2V 0 v

mutual

/-- json.dumps(v) with the default separators. -/
def dumpsC : Json → String
  | .null => "null"
  | .bool true => "true"
  | .bool false => "false"
  | .num n => numRepr n
  | .str s => quoteStr s
  | .arr [] => "[]"
  | .arr (x :: xs) => "[" ++ dumpsC x ++ dumpsCArr xs ++ "]"
  | .obj [] => "\x7b\x7d"
  | .obj ((k, v) :: kvs) =>
      "\x7b" ++ quoteStr k ++ ": " ++ dumpsC v ++ dumpsCObj kvs ++ "\x7d"

/-- Remaining array items in compact mode. -/
def dumpsCArr : List Json → String
  | [] => ""
  | x :: xs => ", " ++ dumpsC x ++ dumpsCArr xs

/-- Remaining object items in compact mode. -/
def dumpsCObj : List (String × Json) → String
  | [] => ""
  | (k, v) :: kvs => ", " ++ quoteStr k ++ ": " ++ dumpsC v ++ dumpsCObj kvs

end

/-! ## Parser: json.loads

A recursive-descent model of json.loads.  Simplifications, each noted
because no theorem depends on the corresponding inputs: numbers with a
fraction or exponent part (floats) fail to parse instead of producing a
float; NaN and Infinity literals are not accepted; a lone surrogate escape
produces the null character instead of a surrogate code unit (Lean chars
cannot hold surrogates). -/

/-- JSON whitespace. -/
def isJsonWs (c : Char) : Bool :=
  c = ' ' || c = '\t' || c = '\n' || c = '\r'

/-- Skip JSON whitespace. -/
def skipWs (cs : List Char) : List Char := cs.dropWhile isJsonWs

/-- ASCII decimal digit. -/
def isDigitCh (c : Char) : Bool := 48 ≤ c.toNat && c.toNat ≤ 57

/-- Value of one hex digit. -/
def hexDigitVal (c : Char) : Option Nat :=
  let n := c.toNat
  if 48 ≤ n ∧ n ≤ 57 then some (n - 48)
  else if 97 ≤ n ∧ n ≤ 102 then some (n - 87)
  else if 65 ≤ n ∧ n ≤ 70 then some (n - 55)
  else none

/-- Value of four hex digits. -/
def hex4Val (a b c d : Char) : Option Nat := do
  let x ← hexDigitVal a
  let y ← hexDigitVal b
  let z ← hexDigitVal c
  let w ← hexDigitVal d
  pure (x * 4096 + y * 256 + z * 16 + w)

/-- The opening brace character. -/
def lbChar : Char := Char.ofNat 123

/-- The closing brace character. -/
def rbChar : Char := Char.ofNat 125

/-- Single-character string escapes. -/
def escSimple (c : Char) : Option Char :=
  if c = '"' then some '"'
  else if c = '\\' then some '\\'
  else if c = '/' then some '/'
  else if c = 'b' then some (Char.ofNat 8)
  else if c = 'f' then some (Char.ofNat 12)
  else if c = 'n' then some '\n'
  else if c = 'r' then some '\r'
  else if c = 't' then some '\t'
  else none

/-- Parse a JSON string body after the opening quote: returns the decoded
characters and the input following the closing quote.  Unescaped control
characters are rejected, as in strict-mode json.loads. -/
def pStr (fuel : Nat) (cs : List Char) : Option (List Char × List Char) :=
  match fuel, cs with
  | 0, _ => none
  | _, [] => none
  | f + 1, c :: rest =>
    if c = '"' then some ([], rest)
    else if c = '\\' then
      match rest with
      | [] => none
      | e :: rest2 =>
        if e = 'u' then
          match rest2 with
          | h1 :: h2 :: h3 :: h4 :: rest3 =>
            match hex4Val h1 h2 h3 h4 with
            | none => none
            | some v =>
              if 55296 ≤ v ∧ v ≤ 56319 then
                match rest3 with
                | b1 :: b2 :: g1 :: g2 :: g3 :: g4 :: rest4 =>
                  if b1 = '\\' ∧ b2 = 'u' then
                    match hex4Val g1 g2 g3 g4 with
                    | some w =>
                      if 56320 ≤ w ∧ w ≤ 57343 then
                        (pStr f rest4).map (fun p =>
                          (Char.ofNat (65536 + (v - 55296) * 1024 + (w - 56320)) :: p.1, p.2))
                      else (pStr f rest3).map (fun p => (Char.ofNat v :: p.1, p.2))
                    | none => (pStr f rest3).map (fun p => (Char.ofNat v :: p.1, p.2))
                  else (pStr f rest3).map (fun p => (Char.ofNat v :: p.1, p.2))
                | _ => (pStr f rest3).map (fun p => (Char.ofNat v :: p.1, p.2))
              else (pStr f rest3).map (fun p => (Char.ofNat v :: p.1, p.2))
          | _ => none
        else
          match escSimple e with
          | some ch => (pStr f rest2).map (fun p => (ch :: p.1, p.2))
          | none => none
    else if c.toNat < 32 then none
    else (pStr f rest).map (fun p => (c :: p.1, p.2))

/-- Parse a JSON integer literal (floats are rejected, see above). -/
def pNum (cs : List Char) : Option (Json × List Char) :=
  let (neg, cs1) :=
    match cs with
    | c :: r => if c = '-' then (true, r) else (false, cs)
    | [] => (false, cs)
  let ds := cs1.takeWhile isDigitCh
  let rest := cs1.dropWhile isDigitCh
  if ds.isEmpty then none
  else if 1 < ds.length ∧ ds.head? = some '0' then none
  else
    match rest with
    | c :: _ =>
      if c = '.' ∨ c = 'e' ∨ c = 'E' then none
      else
        let v : Int := ds.foldl (fun a c => a * 10 + (↑c.toNat - 48)) 0
        some (.num (if neg then -v else v), rest)
    | [] =>
      let v : Int := ds.foldl (fun a c => a * 10 + (↑c.toNat - 48)) 0
      some (.num (if neg then -v else v), rest)

mutual

/-- Parse one JSON value; fuel bounds the recursion depth. -/
def pVal (fuel : Nat) (cs : List Char) : Option (Json × List Char) :=
  match fuel, cs with
  | 0, _ => none
  | _, [] => none
  | _ + 1, 'n' :: 'u' :: 'l' :: 'l' :: r => some (.null, r)
  | _ + 1, 't' :: 'r' :: 'u' :: 'e' :: r => some (.bool true, r)
  | _ + 1, 'f' :: 'a' :: 'l' :: 's' :: 'e' :: r => some (.bool false, r)
  | f + 1, c :: rest =>
    if c = '"' then (pStr (rest.length + 1) rest).map (fun p => (.str (String.mk p.1), p.2))
    else if c = lbChar then
      match skipWs rest with
      | c2 :: rest2 => if c2 = rbChar then some (.obj [], rest2) else pObjItems f (c2 :: rest2)
      | [] => none
    else if c = '[' then
      match skipWs rest with
      | c2 :: rest2 =>
        if c2 = ']' then some (.arr [], rest2)
        else (pArrItems f (c2 :: rest2)).map (fun p => (.arr p.1, p.2))
      | [] => none
    else pNum (c :: rest)

/-- Parse the items of a non-empty JSON array. -/
def pArrItems (fuel : Nat) (cs : List Char) : Option (List Json × List Char) :=
  match fuel with
  | 0 => none
  | f + 1 =>
    match pVal f (skipWs cs) with
    | none => none
    | some (v, rest) =>
      match skipWs rest with
      | c :: rest2 =>
        if c = ',' then (pArrItems f rest2).map (fun p => (v :: p.1, p.2))
        else if c = ']' then some ([v], rest2)
        else none
      | [] => none

/-- Parse the items of a non-empty JSON object. -/
def pObjItems (fuel : Nat) (cs : List Char) : Option (Json × List Char) :=
  match fuel with
  | 0 => none
  | f + 1 =>
    match skipWs cs with
    | c :: rest =>
      if c = '"' then
        match pStr (rest.length + 1) rest with
        | some (k, rest2) =>
          match skipWs rest2 with
          | c2 :: rest3 =>
            if c2 = ':' then
              match pVal f (skipWs rest3) with
              | some (v, rest4) =>
                match skipWs rest4 with
                | c3 :: rest5 =>
                  if c3 = ',' then
                    match pObjItems f rest5 with
                    | some (.obj kvs, rest6) => some (.obj ((String.mk k, v) :: kvs), rest6)
                    | _ => none
                  else if c3 = rbChar then some (.obj [(String.mk k, v)], rest5)
                  else none
                | [] => none
              | none => none
            else none
          | [] => none
        | none => none
      else none
    | [] => none

end

/-- json.loads: the entire input must be a single JSON document, with only
whitespace around it; any trailing data is an error. -/
def loads (s : String) : Option Json :=
  match pVal (s.length + 1) (skipWs s.data) with
  | some (v, rest) => if (skipWs rest).isEmpty then some v else none
  | none => none

/-! ## Gate: module type detection
(src/ftl2/ftl_gate/main module, is_binary_module / is_new_style_module /
is_want_json_module and the dispatch inside execute_module).
Module bytes are lists of byte values. -/

/-- needle starts the haystack. -/
def startsWithL {α : Type} [BEq α] : List α → List α → Bool
  | [], _ => true
  | _ :: _, [] => false
  | a :: as, b :: bs => a == b && startsWithL as bs

/-- Python bytes containment: needle occurs contiguously in the haystack. -/
def containsSub {α : Type} [BEq α] (needle : List α) : List α → Bool
  | [] => needle.isEmpty
  | b :: bs => startsWithL needle (b :: bs) || containsSub needle bs

/-- UTF-8 continuation byte. -/
def isContByte (b : Nat) : Bool := 128 ≤ b && b ≤ 191

/-- Whether a byte sequence decodes as UTF-8, exactly as bytes.decode()
accepts it: no overlong forms, no surrogates, nothing above U+10FFFF. -/
def validUtf8 : List Nat → Bool
  | [] => true
  | b :: rest =>
    if b ≤ 127 then validUtf8 rest
    else if 194 ≤ b && b ≤ 223 then
      match rest with
      | b1 :: r => isContByte b1 && validUtf8 r
      | [] => false
    else if b = 224 then
      match rest with
      | b1 :: b2 :: r => (160 ≤ b1 && b1 ≤ 191) && isContByte b2 && validUtf8 r
      | _ => false
    else if (225 ≤ b && b ≤ 236) || b = 238 || b = 239 then
      match rest with
      | b1 :: b2 :: r => isContByte b1 && isContByte b2 && validUtf8 r
      | _ => false
    else if b = 237 then
      match rest with
      | b1 :: b2 :: r => (128 ≤ b1 && b1 ≤ 159) && isContByte b2 && validUtf8 r
      | _ => false
    else if b = 240 then
      match rest with
      | b1 :: b2 :: b3 :: r =>
          (144 ≤ b1 && b1 ≤ 191) && isContByte b2 && isContByte b3 && validUtf8 r
      | _ => false
    else if 241 ≤ b && b ≤ 243 then
      match rest with
      | b1 :: b2 :: b3 :: r =>
          isContByte b1 && isContByte b2 && isContByte b3 && validUtf8 r
      | _ => false
    else if b = 244 then
      match rest with
      | b1 :: b2 :: b3 :: r =>
          (128 ≤ b1 && b1 ≤ 143) && isContByte b2 && isContByte b3 && validUtf8 r
      | _ => false
    else false

/-- Bytes of an ASCII marker string. -/
def asciiBytes (s : String) : List Nat := s.data.map Char.toNat

/-- A module is binary when its bytes fail UTF-8 decoding. -/
def is_binary_module (m : List Nat) : Bool := !validUtf8 m

/-- New-style marker: the bytes contain AnsibleModule followed by an open
parenthesis. -/
def is_new_style_module (m : List Nat) : Bool :=
  containsSub (asciiBytes "AnsibleModule(") m

/-- WANT_JSON marker. -/
def is_want_json_module (m : List Nat) : Bool :=
  containsSub (asciiBytes "WANT_JSON") m

/-- Python str() of a JSON-ish value, used for old-style key=value args.
Containers are approximated by their compact JSON dump (Python would use
repr; no theorem depends on container-valued old-style args). -/
def pyStr : Json → String
  | .null => "None"
  | .bool true => "True"
  | .bool false => "False"
  | .num n => toString n
  | .str s => s
  | .arr xs => dumpsC (.arr xs)
  | .obj kvs => dumpsC (.obj kvs)

/-- Python module_args or empty dict. -/
def pyOrObj (j : Json) : Json := if pyTruthy j then j else .obj []

/-- How the gate invokes a classified module: the constructor records the
calling convention and the serialized argument payload. -/
inductive Invocation where
  | binary (argsFileContent : String)
  | newStyle (stdinData : String)
  | wantJson (argsFileContent : String)
  | oldStyle (argsFileContent : String)
deriving DecidableEq

/-- Old-style args file: space-separated key=value pairs, empty when the
args are falsy. -/
def oldStyleArgs (args : Json) : String :=
  if pyTruthy args then
    match args with
    | .obj kvs => String.intercalate " " (kvs.map fun p => p.1 ++ "=" ++ pyStr p.2)
    | _ => ""
  else ""

/-- The classification-and-invocation chain of execute_module: binary is
checked first, then the AnsibleModule marker, then WANT_JSON, else
old-style. -/
def executeModuleInvocation (moduleBytes : List Nat) (moduleArgs : Json) :
    Invocation :=
  if is_binary_module moduleBytes then
    .binary (dumpsC (pyOrObj moduleArgs))
  else if is_new_style_module moduleBytes then
    .newStyle (dumpsC (.obj [("ANSIBLE_MODULE_ARGS", pyOrObj moduleArgs)]))
  else if is_want_json_module moduleBytes then
    .wantJson (dumpsC (pyOrObj moduleArgs))
  else
    .oldStyle (oldStyleArgs moduleArgs)

/-! ## Gate: message loop (main in src/ftl2/ftl_gate)

Modelled from the spec where the source is absent: ftl2.message
(GateProtocol) is not under src/; per spec section 4.1 a decoded frame is a
two-element array of a type string and an object body, and a malformed
frame raises, killing the session before any further request is read.  The
loop model therefore consumes a list of well-formed (type, body) messages;
the body is always a JSON object, so the isinstance-dict guards of the
Module and FTLModule branches never fire.  Module execution is abstracted
by an oracle giving each request its outcome. -/

/-- An incoming well-formed frame, by message type. -/
inductive Msg where
  | hello (data : Json)
  | moduleReq (data : Json)
  | ftlModuleReq (data : Json)
  | shutdown (data : Json)
  | other (t : String) (data : Json)

/-- Outcome of executing a classic module request (execute_module):
a result, a bundle miss, or a raised exception. -/
inductive ModOutcome where
  | ok (stdout stderr : String)
  | notFound (name : String)
  | fail (msg : String)

/-- Outcome of executing an FTL-native module request
(execute_ftl_module catches every exception internally). -/
inductive FtlOutcome where
  | ok (result : Json)
  | fail (msg : String)

/-- Execution oracle: what running each request body would produce. -/
structure GateExec where
  runModule : Json → ModOutcome
  runFtl : Json → FtlOutcome

/-- A frame sent back by the gate. -/
inductive Response where
  | hello (data : Json)
  | moduleResult (stdout stderr : String)
  | moduleNotFound (message : String)
  | ftlModuleResult (result : Json)
  | error (message : String)
  | goodbye

/-- The single response the loop body sends for one message. -/
def respond (ex : GateExec) : Msg → Response
  | .hello d => .hello d
  | .moduleReq d =>
    match ex.runModule d with
    | .ok so se => .moduleResult so se
    | .notFound n => .moduleNotFound ("Module not found: " ++ n)
    | .fail m => .error ("Module execution failed: " ++ m)
  | .ftlModuleReq d =>
    match ex.runFtl d with
    | .ok r => .ftlModuleResult r
    | .fail m => .error ("FTL module execution failed: " ++ m)
  | .shutdown _ => .goodbye
  | .other t _ => .error ("Unknown message type: " ++ t)

/-- Shutdown test, deciding loop exit. -/
def isShutdownMsg : Msg → Bool
  | .shutdown _ => true
  | _ => false

/-- The gate main loop over the incoming frames: answer each message in
turn; stop after answering Shutdown; at EOF send Goodbye and stop. -/
def runGate (ex : GateExec) : List Msg → List Response
  | [] => [.goodbye]
  | m :: rest =>
      respond ex m :: (if isShutdownMsg m then [] else runGate ex rest)

/-- The response types the request contract allows for each request. -/
def allowedResponse : Msg → Response → Prop
  | .hello d, r => r = .hello d
  | .moduleReq _, r =>
      (∃ a b, r = .moduleResult a b) ∨ (∃ m, r = .moduleNotFound m) ∨
      (∃ m, r = .error m)
  | .ftlModuleReq _, r =>
      (∃ j, r = .ftlModuleResult j) ∨ (∃ m, r = .error m)
  | .shutdown _, r => r = .goodbye
  | .other _ _, r => ∃ m, r = .error m

/-! ## Argument resolver (src/ftl2/arguments.py) -/

/-- Modelled from the spec: ftl2.types (HostConfig) is not under src/.
Only the fields merge_arguments reads are carried: the host name and its
variable mapping. -/
structure HostConfig where
  name : String
  vars : Json := .obj []

/-- Modelled from the spec: ftl2.refs is not under src/.  A symbolic ref is
a head name plus a chain of field accesses, built by attribute access and
never mutated. -/
structure SymRef where
  head : String
  path : List String
deriving DecidableEq

/-- A module argument value: a literal or a symbolic ref leaf. -/
inductive Arg where
  | lit (v : Json)
  | ref (r : SymRef)

/-- isinstance(value, Ref). -/
def isRefArg : Arg → Bool
  | .ref _ => true
  | .lit _ => false

/-- has_refs: falsy args have none; otherwise any top-level value is a Ref. -/
def has_refs (args : Option (List (String × Arg))) : Bool :=
  match args with
  | none => false
  | some l => if l.isEmpty then false else l.any (fun p => isRefArg p.2)

/-- Chained field lookup; a missing link is a resolution error naming the
failing field. -/
def derefPath (cur : Json) : List String → Except String Json
  | [] => .ok cur
  | k :: rest =>
    match jget cur k with
    | some v => derefPath v rest
    | none => .error k

/-- Modelled from the spec: dereferencing is a pure function from the host
vars and a ref to a value, walking head then each field. -/
def derefRef (vars : Json) (r : SymRef) : Except String Json :=
  derefPath vars (r.head :: r.path)

/-- deref applied to any argument value: a Ref resolves against the vars,
any other value passes through unchanged (modelled from the spec). -/
def derefArg (vars : Json) : Arg → Except String Arg
  | .lit v => .ok (.lit v)
  | .ref r => (derefRef vars r).map .lit

/-- The deref loop of merge_arguments: every value is passed through deref
in order; the first resolution error raises. -/
def derefAll (vars : Json) : List (String × Arg) → Except String (List (String × Arg))
  | [] => .ok []
  | p :: ps => do
    let a ← derefArg vars p.2
    let rest ← derefAll vars ps
    pure ((p.1, a) :: rest)

/-- The host-specific overrides merge_arguments selects: empty when
host_args is falsy, else host_args.get(host name, default empty). -/
def host_specific_of
    (host_args : Option (List (String × List (String × Json))))
    (name : String) : List (String × Json) :=
  match host_args with
  | none => []
  | some ha => if ha.isEmpty then [] else (dictGet ha name).getD []

/-- merge_arguments: host-specific overrides win over dereferenced refs,
which win over literal module args.  A failing dereference propagates as a
resolution error. -/
def merge_arguments (host : HostConfig)
    (module_args : Option (List (String × Arg)))
    (host_args : Option (List (String × List (String × Json)))) :
    Except String (List (String × Arg)) :=
  let host_specific := host_specific_of host_args host.name
  let hasR := has_refs module_args
  if host_specific.isEmpty && !hasR then
    .ok (module_args.getD [])
  else
    match (if hasR then derefAll host.vars (module_args.getD [])
           else .ok (module_args.getD [])) with
    | .error e => .error e
    | .ok merged =>
        .ok (dictUpdate merged (host_specific.map (fun p => (p.1, Arg.lit p.2))))

/-! ## Safety checks (src/ftl2/safety.py)

The regular-expression engine is Python stdlib, so pattern matching is
abstracted by two oracles: matchBlocked returns the reason of the first
BLOCKED_PATTERNS entry matching the command (None when none match) and
matchDestructive returns the descriptions of the matching
DESTRUCTIVE_PATTERNS entries in order.  The scratch-path exemption is
concrete substring search, as in the source. -/

/-- The safe scratch path prefixes. -/
def SAFE_PATHS : List String := ["/tmp/", "/var/tmp/", "/dev/shm/"]

/-- Substring containment on strings. -/
def strContains (needle hay : String) : Bool := containsSub needle.data hay.data

/-- Python str.isspace() for one character: the ASCII whitespace and
separator controls 0x09-0x0d, 0x1c-0x1f and 0x20, plus the Unicode
whitespace code points 0x85, 0xa0, 0x1680, 0x2000-0x200a, 0x2028, 0x2029,
0x202f, 0x205f and 0x3000. -/
def pyIsSpace (c : Char) : Bool :=
  let n := c.toNat
  (9 ≤ n && n ≤ 13) || (28 ≤ n && n ≤ 32) || n = 133 || n = 160 ||
  n = 5760 || (8192 ≤ n && n ≤ 8202) || n = 8232 || n = 8233 ||
  n = 8239 || n = 8287 || n = 12288

/-- Python str.strip(): drop whitespace from both ends. -/
def pyStrip (s : String) : String :=
  String.mk (((s.data.dropWhile pyIsSpace).reverse.dropWhile
    pyIsSpace).reverse)

/-- A command mentions a safe scratch location. -/
def is_safe_path (cmd : String) : Bool :=
  SAFE_PATHS.any (fun p => strContains p cmd)

/-- Result record of a safety check. -/
structure SafetyCheckResult where
  safe : Bool := true
  blocked : Bool := false
  warnings : List String := []
  blocked_reason : String := ""
deriving DecidableEq

/-- check_command_safety: blocked patterns are tested first and return
immediately, unaffected by scratch paths; destructive matches are collected
only when the command mentions no scratch location.  The command is
stripped of surrounding whitespace first. -/
def check_command_safety (matchBlocked : String → Option String)
    (matchDestructive : String → List String) (cmd : String) :
    SafetyCheckResult :=
  let normalized := pyStrip cmd
  match matchBlocked normalized with
  | some reason =>
      { safe := false, blocked := true, warnings := [], blocked_reason := reason }
  | none =>
      let ws := if is_safe_path normalized then [] else matchDestructive normalized
      { safe := ws.isEmpty, blocked := false, warnings := ws, blocked_reason := "" }

/-! ## State store (src/ftl2/state/file.py and state.py)

Timestamps: datetime.now(timezone.utc).isoformat() is modelled by an
abstract monotone clock rendered to a string. -/

/-- An abstract ISO timestamp for clock value t. -/
def nowStr (t : Nat) : String := toString t

/-- _empty_state. -/
def emptyState (t : Nat) : Json :=
  .obj [("version", .num 1), ("created_at", .str (nowStr t)),
        ("updated_at", .str (nowStr t)), ("hosts", .obj []),
        ("resources", .obj [])]

/-- The state directory: the target file and the sibling temp file. -/
structure FS where
  main : Option String := none
  temp : Option String := none
deriving DecidableEq

/-- The low-level steps write_state_file performs, in order. -/
inductive FsAction where
  | writeTemp (content : String)
  | fsyncTemp
  | renameTemp
deriving DecidableEq

/-- Effect of one step on the directory: only the rename touches the
target, and it installs the whole temp content at once. -/
def applyFsAction (fs : FS) : FsAction → FS
  | .writeTemp c => { fs with temp := some c }
  | .fsyncTemp => fs
  | .renameTemp => { main := fs.temp, temp := none }

/-- Apply a sequence of steps. -/
def applyFsActions (fs : FS) (acts : List FsAction) : FS :=
  acts.foldl applyFsAction fs

/-- write_state_file: dump with indent 2 plus a trailing newline, write the
sibling temp file, fsync it, rename it over the target. -/
def write_state_file (data : Json) : List FsAction :=
  [.writeTemp (dumps2 data ++ "\n"), .fsyncTemp, .renameTemp]

/-- What reading the configured path can yield. -/
inductive FileRead where
  | missing
  | unreadable
  | content (s : String)

/-- read_state_file, also reporting whether a warning was logged: a missing
or whitespace-only file silently yields the empty state; an unreadable or
unparseable file logs a warning and yields the empty state. -/
def read_state_file (f : FileRead) (t : Nat) : Json × Bool :=
  match f with
  | .missing => (emptyState t, false)
  | .unreadable => (emptyState t, true)
  | .content c =>
    if pyStrip c = "" then (emptyState t, false)
    else
      match loads c with
      | some j => (j, false)
      | none => (emptyState t, true)

/-- State construction only reads; it performs no write. -/
def stateInit (f : FileRead) (t : Nat) : Json × Bool := read_state_file f t

/-- State construction as seen from the state directory: the data is read
from the target file and the directory is returned as it was, together
with the warning flag. -/
def stateInitFs (fs : FS) (t : Nat) : Json × FS × Bool :=
  let f : FileRead := match fs.main with | none => .missing | some s => .content s
  let r := read_state_file f t
  (r.1, fs, r.2)

/-- Python a or b for strings (ansible_host or name). -/
def pyOrStr (a : Option String) (b : String) : String :=
  match a with
  | some s => if s = "" then b else s
  | none => b

/-- The host record add_host builds, before insertion. -/
def addHostRecord (name : String) (ansibleHost ansibleUser : Option String)
    (port : Int) (groups : Option (List String))
    (extra : List (String × Json)) (t : Nat) : List (String × Json) :=
  let hostData : List (String × Json) :=
    [("ansible_host", .str (pyOrStr ansibleHost name)),
     ("ansible_port", .num port),
     ("groups", .arr ((groups.getD []).map .str)),
     ("added_at", .str (nowStr t))]
  let hostData :=
    match ansibleUser with
    | some u => if u = "" then hostData else dictSet hostData "ansible_user" (.str u)
    | none => hostData
  dictUpdate hostData extra

/-- The State mutations that persist. -/
inductive StOp where
  | addHost (name : String) (ansibleHost ansibleUser : Option String)
      (port : Int) (groups : Option (List String))
      (extra : List (String × Json))
  | addResource (name : String) (d : List (String × Json))
  | updateResource (name : String) (d : List (String × Json))
  | removeHost (name : String)
  | removeResource (name : String)

/-- The in-memory effect of one mutation and whether it saves: add_host and
add_resource always save; update_resource and the removals return False
without saving when the name is absent.  (Python would raise if the hosts
or resources slot held a non-object; the model leaves the state unchanged
there, and no theorem relies on that case.) -/
def applyOp (data : Json) (op : StOp) (t : Nat) : Json × Bool :=
  match op with
  | .addHost name ah au port groups extra =>
      let data := if (jget data "hosts").isNone then jset data "hosts" (.obj []) else data
      let rec0 := addHostRecord name ah au port groups extra t
      (jset data "hosts" (jset ((jget data "hosts").getD (.obj [])) name (.obj rec0)), true)
  | .addResource name d =>
      let data :=
        if (jget data "resources").isNone then jset data "resources" (.obj []) else data
      let rec0 := dictUpdate [("created_at", Json.str (nowStr t))] d
      (jset data "resources" (jset ((jget data "resources").getD (.obj [])) name (.obj rec0)), true)
  | .updateResource name d =>
      match jget data "resources" with
      | some (.obj res) =>
        match dictGet res name with
        | some (.obj cur) =>
          let cur := dictUpdate cur d
          let cur := dictSet cur "last_seen" (.str (nowStr t))
          (jset data "resources" (.obj (dictSet res name (.obj cur))), true)
        | some _ => (data, false)
        | none => (data, false)
      | _ => (data, false)
  | .removeHost name =>
      match jget data "hosts" with
      | some (.obj hosts) =>
        if (dictGet hosts name).isSome then
          (jset data "hosts" (.obj (hosts.filter (fun p => p.1 ≠ name))), true)
        else (data, false)
      | _ => (data, false)
  | .removeResource name =>
      match jget data "resources" with
      | some (.obj res) =>
        if (dictGet res name).isSome then
          (jset data "resources" (.obj (res.filter (fun p => p.1 ≠ name))), true)
        else (data, false)
      | _ => (data, false)

/-- _save: stamp updated_at with the current time, then write atomically. -/
def stateSave (data : Json) (t : Nat) : Json × List FsAction :=
  let d := jset data "updated_at" (.str (nowStr t))
  (d, write_state_file d)

/-- One State mutation end to end: apply the operation; on success stamp
updated_at and write the file; on failure neither memory nor disk changes.
Returns (new data, new directory, emitted steps, saved). -/
def stepState (data : Json) (fs : FS) (op : StOp) (t : Nat) :
    Json × FS × List FsAction × Bool :=
  let r := applyOp data op t
  if r.2 then
    let s := stateSave r.1 t
    (s.1, applyFsActions fs s.2, s.2, true)
  else (data, fs, [], false)

/-- get_resource: self.data.get("resources", default empty).get(name). -/
def get_resource (data : Json) (name : String) : Option Json :=
  jget ((jget data "resources").getD (.obj [])) name

/-- get_host: self.data.get("hosts", default empty).get(name). -/
def get_host (data : Json) (name : String) : Option Json :=
  jget ((jget data "hosts").getD (.obj [])) name

/-- has_resource: membership test, regardless of the record value. -/
def has_resource (data : Json) (name : String) : Bool :=
  (get_resource data name).isSome

/-- State.get: get_resource(name) or get_host(name), with Python
truthiness deciding the or. -/
def stateGet (data : Json) (name : String) : Option Json :=
  pyOrOpt (get_resource data name) (get_host data name)

/-! ## Local runner result parsing (src/ftl2/runners.py) -/

/-- Outcome of LocalModuleRunner.run after the module subprocess returned:
either a success result carrying the output mapping and the changed value,
or an error result. -/
inductive LocalRunResult where
  | success (output : Json) (changed : Json)
  | failure (error : String)

/-- The stdout-parsing tail of LocalModuleRunner.run: the whole stdout is
parsed as one JSON document; a parse failure wraps the stdout under a
stdout key and still succeeds; a JSON value that is not an object makes the
changed-field lookup raise, which the outer handler turns into an error
result.  changed is the output's changed field, default False. -/
def localRunParse (resultData : String) : LocalRunResult :=
  match loads resultData with
  | some (.obj kvs) =>
      .success (.obj kvs) ((dictGet kvs "changed").getD (.bool false))
  | some _ => .failure "Execution failed: output has no attribute get"
  | none => .success (.obj [("stdout", .str resultData)]) (.bool false)

/-! ## wait_for_ssh (src/ftl2/automation/proxy.py)

Time is explicit: each connection attempt is an entry (duration, success)
of the attempt trace; the code bounds each duration by connect_timeout via
wait_for.  The loop clock starts after the initial delay, as in the code. -/

/-- Result of the polling loop: a success dict carrying elapsed (the code
also sets changed to False there) or a raised TimeoutError. -/
inductive WfsOutcome where
  | ok (elapsed : Nat)
  | timeoutErr (elapsed : Nat)
deriving DecidableEq

/-- The retry loop: try a connection; on success return the elapsed time;
on failure raise when elapsed reached the timeout, else sleep and retry.
None when the finite attempt trace ends before the loop decides. -/
def wfsLoop (timeout sleepT : Nat) : List (Nat × Bool) → Nat → Option WfsOutcome
  | [], _ => none
  | (d, success) :: rest, t =>
    let t2 := t + d
    if success then some (.ok t2)
    else if timeout ≤ t2 then some (.timeoutErr t2)
    else wfsLoop timeout sleepT rest (t2 + sleepT)

/-- The time at which the loop returned or raised, measured from the end
of the initial delay. -/
def elapsedOf : WfsOutcome → Nat
  | .ok e => e
  | .timeoutErr e => e

/-- wait_for_ssh: sleep the initial delay, then poll.  Returns the outcome
and the total call duration including the delay; the elapsed field of a
success excludes the delay, as in the code. -/
def waitForSsh (timeout delay sleepT : Nat) (attempts : List (Nat × Bool)) :
    Option (WfsOutcome × Nat) :=
  (wfsLoop timeout sleepT attempts 0).map (fun r => (r, delay + elapsedOf r))

/-- An attempt trace for wait_for_ssh: ten instant refusals, then one
attempt that spends the full five-second connect timeout before failing. -/
def slowFinalAttemptTrace : List (Nat × Bool) :=
  List.replicate 10 (0, false) ++ [(5, false)]

/-- A state document whose resource record for x is the empty object while
a host record named x also exists. -/
def emptyResourceStateData : Json :=
  .obj [("hosts", .obj [("x", .obj [("ansible_host", .str "10.0.0.1")])]),
        ("resources", .obj [("x", .obj [])])]

/-! ## Helper lemmas on the dict model -/

theorem dictGet_cons {α : Type} (a : String × α) (l : List (String × α)) (k : String) :
    dictGet (a :: l) k = if a.1 == k then some a.2 else dictGet l k := by
  by_cases h : a.1 == k <;> simp [dictGet, List.find?_cons, h]

theorem dictGet_append {α : Type} (l1 l2 : List (String × α)) (k : String) :
    dictGet (l1 ++ l2) k =
      match dictGet l1 k with
      | some v => some v
      | none => dictGet l2 k := by
  induction l1 with
  | nil => simp [dictGet]
  | cons a as ih =>
    rw [List.cons_append, dictGet_cons, dictGet_cons]
    by_cases ha : a.1 == k <;> simp [ha, ih]

theorem mapSet_get_self {α : Type} (d : List (String × α)) (k : String) (v : α) :
    dictGet (d.map (fun p => if p.1 == k then (k, v) else p)) k =
      if d.any (fun p => p.1 == k) then some v else none := by
  induction d with
  | nil => simp [dictGet]
  | cons a as ih =>
    rw [List.map_cons, List.any_cons]
    by_cases ha : a.1 == k
    · rw [if_pos ha, dictGet_cons]
      simp [ha]
    · have ha2 : (a.1 == k) = false := by simpa using ha
      rw [if_neg ha, dictGet_cons, ha2]
      simpa using ih

theorem mapSet_get_ne {α : Type} (d : List (String × α)) (k k2 : String) (v : α)
    (hne : k2 ≠ k) :
    dictGet (d.map (fun p => if p.1 == k then (k, v) else p)) k2 = dictGet d k2 := by
  induction d with
  | nil => rfl
  | cons a as ih =>
    rw [List.map_cons, dictGet_cons, dictGet_cons]
    by_cases ha : a.1 == k
    · rw [if_pos ha]
      have h1 : ((k, v).1 == k2) = false := by simp [Ne.symm hne]
      have hak : a.1 = k := by simpa using ha
      have h2 : (a.1 == k2) = false := by simp [hak, Ne.symm hne]
      rw [h1, h2]
      simpa using ih
    · rw [if_neg ha]
      by_cases h2 : a.1 == k2
      · simp [h2]
      · rw [if_neg h2, if_neg h2]
        exact ih

theorem dictGet_eq_none_of_any_false {α : Type} (d : List (String × α)) (k : String)
    (h : d.any (fun p => p.1 == k) = false) : dictGet d k = none := by
  induction d with
  | nil => rfl
  | cons a as ih =>
    simp only [List.any_cons, Bool.or_eq_false_iff] at h
    rw [dictGet_cons, h.1]
    simp [ih h.2]

theorem dictGet_dictSet_self {α : Type} (d : List (String × α)) (k : String) (v : α) :
    dictGet (dictSet d k v) k = some v := by
  unfold dictSet
  by_cases h : d.any (fun p => p.1 == k)
  · rw [if_pos h, mapSet_get_self, if_pos h]
  · rw [if_neg h, dictGet_append]
    rw [dictGet_eq_none_of_any_false d k (by rwa [Bool.not_eq_true] at h)]
    simp [dictGet]

theorem dictGet_dictSet_ne {α : Type} (d : List (String × α)) (k k2 : String) (v : α)
    (hne : k2 ≠ k) : dictGet (dictSet d k v) k2 = dictGet d k2 := by
  unfold dictSet
  by_cases h : d.any (fun p => p.1 == k)
  · rw [if_pos h, mapSet_get_ne _ _ _ _ hne]
  · rw [if_neg h, dictGet_append]
    have h1 : (k == k2) = false := by simp [Ne.symm hne]
    cases hd : dictGet d k2 <;> simp [dictGet, h1]

theorem dictGet_mem {α : Type} {l : List (String × α)} {k : String} {v : α}
    (h : dictGet l k = some v) : (k, v) ∈ l := by
  induction l with
  | nil => simp [dictGet] at h
  | cons a as ih =>
    rw [dictGet_cons] at h
    by_cases ha : a.1 == k
    · rw [if_pos ha] at h
      obtain ⟨x, y⟩ := a
      have hk : x = k := by simpa using ha
      simp only [Option.some.injEq] at h
      rw [← hk, ← h]
      exact List.mem_cons_self _ _
    · rw [if_neg ha] at h
      exact List.mem_cons_of_mem _ (ih h)

theorem dictGet_eq_none_of_not_mem {α : Type} (d : List (String × α)) (k : String)
    (h : k ∉ d.map Prod.fst) : dictGet d k = none := by
  apply dictGet_eq_none_of_any_false
  by_contra hb
  rw [Bool.not_eq_false, List.any_eq_true] at hb
  obtain ⟨p, hp, hpk⟩ := hb
  have hp1 : p.1 = k := by simpa using hpk
  have hmem : k ∈ d.map Prod.fst := by
    rw [← hp1]
    exact List.mem_map_of_mem Prod.fst hp
  exact h hmem

theorem dictGet_map_val {α β : Type} (l : List (String × α)) (f : α → β) (k : String) :
    dictGet (l.map (fun p => (p.1, f p.2))) k = (dictGet l k).map f := by
  induction l with
  | nil => rfl
  | cons a as ih =>
    rw [List.map_cons, dictGet_cons, dictGet_cons]
    by_cases ha : a.1 == k <;> simp [ha, ih]

theorem dictGet_dictUpdate {α : Type} (d u : List (String × α)) (k : String)
    (hu : (u.map Prod.fst).Nodup) :
    dictGet (dictUpdate d u) k =
      match dictGet u k with
      | some v => some v
      | none => dictGet d k := by
  induction u generalizing d with
  | nil => simp [dictUpdate, dictGet]
  | cons a as ih =>
    simp only [List.map_cons, List.nodup_cons] at hu
    rw [show dictUpdate d (a :: as) = dictUpdate (dictSet d a.1 a.2) as from rfl]
    rw [ih _ hu.2, dictGet_cons]
    by_cases ha : a.1 == k
    · have hk : k = a.1 := (beq_iff_eq.mp ha).symm
      have hnone : dictGet as k = none := by
        apply dictGet_eq_none_of_not_mem
        rw [hk]
        exact hu.1
      rw [hnone, if_pos ha]
      rw [hk, dictGet_dictSet_self]
    · have hk : k ≠ a.1 := fun hh => ha (beq_iff_eq.mpr hh.symm)
      rw [dictGet_dictSet_ne _ _ _ _ hk, if_neg ha]

/-! ## C10 and C1: the gate message loop -/

/-- C10: a well-formed frame with an unknown type is answered by a single
Error frame naming the type, and the loop goes on to process the following
frames exactly as it otherwise would: an unknown type never terminates the
gate loop. -/
theorem gate_unknown_type_error_continues (ex : GateExec) (t : String)
    (d : Json) (rest : List Msg) :
    respond ex (Msg.other t d) = Response.error ("Unknown message type: " ++ t)
    ∧ runGate ex (Msg.other t d :: rest) =
        Response.error ("Unknown message type: " ++ t) :: runGate ex rest := by
  exact ⟨rfl, by simp [runGate, respond, isShutdownMsg]⟩

/-- C1: every request before the first Shutdown is answered by exactly one
response, in request order with no multiplexing; Shutdown is answered by
Goodbye and the loop stops there; and each response type matches its
request: Hello by Hello, Module by ModuleResult, ModuleNotFound or Error,
FTLModule by FTLModuleResult or Error. -/
theorem gate_session_serial_responses (ex : GateExec) (pre rest : List Msg)
    (d : Json) (hpre : ∀ m ∈ pre, isShutdownMsg m = false) :
    runGate ex (pre ++ Msg.shutdown d :: rest) =
      pre.map (respond ex) ++ [Response.goodbye]
    ∧ ∀ m, allowedResponse m (respond ex m) := by
  constructor
  · induction pre with
    | nil => simp [runGate, respond, isShutdownMsg]
    | cons m ms ih =>
      have hm : isShutdownMsg m = false := hpre m (List.mem_cons_self m ms)
      have hms : ∀ x ∈ ms, isShutdownMsg x = false :=
        fun x hx => hpre x (List.mem_cons_of_mem m hx)
      simp [runGate, hm, ih hms]
  · intro m
    cases m with
    | hello d2 => simp [respond, allowedResponse]
    | moduleReq d2 =>
      cases h : ex.runModule d2 <;> simp [respond, allowedResponse, h]
    | ftlModuleReq d2 =>
      cases h : ex.runFtl d2 <;> simp [respond, allowedResponse, h]
    | shutdown d2 => simp [respond, allowedResponse]
    | other t d2 => simp [respond, allowedResponse]

/-- Witness for C1 at a concrete session: Hello then a Module request then
Shutdown, with an execution oracle that succeeds. -/
theorem gate_session_serial_responses_witness :
    runGate ⟨fun _ => .ok "out" "err", fun _ => .ok .null⟩
        ([Msg.hello (.obj []), Msg.moduleReq (.obj [("module_name", .str "ping")])]
          ++ Msg.shutdown (.obj []) :: []) =
      [Response.hello (.obj []), Response.moduleResult "out" "err",
       Response.goodbye] := by
  have h := (gate_session_serial_responses
    ⟨fun _ => .ok "out" "err", fun _ => .ok .null⟩
    [Msg.hello (.obj []), Msg.moduleReq (.obj [("module_name", .str "ping")])]
    [] (.obj [])
    (by intro m hm
        simp only [List.mem_cons, List.mem_singleton] at hm
        rcases hm with h1 | h1 | h1 <;> first | (subst h1; rfl) | cases h1)).1
  simpa [respond] using h

/-! ## C2: module type detection order -/

/-- C2: execute_module classifies in exactly this order: bytes that fail
UTF-8 decoding run as a binary executable with a JSON args file; otherwise
bytes containing AnsibleModule followed by an open parenthesis run with the
JSON args wrapped under ANSIBLE_MODULE_ARGS on stdin; otherwise bytes
containing WANT_JSON run with a JSON args file; otherwise the module runs
old-style with a space-separated key=value args file. -/
theorem module_type_detection_order (bs : List Nat) (args : Json) :
    (validUtf8 bs = false →
      executeModuleInvocation bs args = .binary (dumpsC (pyOrObj args)))
    ∧ (validUtf8 bs = true →
        containsSub (asciiBytes "AnsibleModule(") bs = true →
        executeModuleInvocation bs args =
          .newStyle (dumpsC (.obj [("ANSIBLE_MODULE_ARGS", pyOrObj args)])))
    ∧ (validUtf8 bs = true →
        containsSub (asciiBytes "AnsibleModule(") bs = false →
        containsSub (asciiBytes "WANT_JSON") bs = true →
        executeModuleInvocation bs args = .wantJson (dumpsC (pyOrObj args)))
    ∧ (validUtf8 bs = true →
        containsSub (asciiBytes "AnsibleModule(") bs = false →
        containsSub (asciiBytes "WANT_JSON") bs = false →
        executeModuleInvocation bs args = .oldStyle (oldStyleArgs args)) := by
  refine ⟨fun h1 => ?_, fun h1 h2 => ?_, fun h1 h2 h3 => ?_, fun h1 h2 h3 => ?_⟩
  · simp [executeModuleInvocation, is_binary_module, h1]
  · simp [executeModuleInvocation, is_binary_module, is_new_style_module, h1, h2]
  · simp [executeModuleInvocation, is_binary_module, is_new_style_module,
          is_want_json_module, h1, h2, h3]
  · simp [executeModuleInvocation, is_binary_module, is_new_style_module,
          is_want_json_module, h1, h2, h3]

/-- Witness for C2: a byte string that is invalid UTF-8 even though it
contains the AnsibleModule marker is classified binary. -/
theorem module_type_detection_order_witness :
    validUtf8 (255 :: asciiBytes "AnsibleModule(") = false
    ∧ executeModuleInvocation (255 :: asciiBytes "AnsibleModule(") (.obj []) =
        .binary (dumpsC (pyOrObj (.obj []))) :=
  ⟨rfl, (module_type_detection_order (255 :: asciiBytes "AnsibleModule(") (.obj [])).1 rfl⟩

/-! ## C5: command safety precedence -/

/-- C5: a command matching a blocked pattern is blocked (safe false, not
overridable) no matter what paths it mentions; a command matching only
destructive patterns is reported unsafe with their warnings — unless it
mentions a scratch location, in which case the destructive matches are
exempted and the command is reported safe. -/
theorem command_safety_block_and_scratch (mb : String → Option String)
    (md : String → List String) (cmd : String) :
    (∀ r, mb (pyStrip cmd) = some r →
        check_command_safety mb md cmd =
          { safe := false, blocked := true, warnings := [], blocked_reason := r })
    ∧ (mb (pyStrip cmd) = none → is_safe_path (pyStrip cmd) = false → md (pyStrip cmd) ≠ [] →
        check_command_safety mb md cmd =
          { safe := false, blocked := false, warnings := md (pyStrip cmd),
            blocked_reason := "" })
    ∧ (mb (pyStrip cmd) = none → is_safe_path (pyStrip cmd) = true →
        check_command_safety mb md cmd =
          { safe := true, blocked := false, warnings := [], blocked_reason := "" }) := by
  refine ⟨fun r h => ?_, fun h1 h2 h3 => ?_, fun h1 h2 => ?_⟩
  · simp [check_command_safety, h]
  · have h4 : (md (pyStrip cmd)).isEmpty = false := by
      rcases hmd : md (pyStrip cmd) with _ | ⟨a, as⟩
      · exact absurd hmd h3
      · rfl
    simp [check_command_safety, h1, h2, h4]
  · simp [check_command_safety, h1, h2]

/-- Witness for C5: a blocked command with a concrete pattern oracle is
refused even though the destructive oracle also fires. -/
theorem command_safety_block_and_scratch_witness :
    check_command_safety
        (fun s => if s = "rm -rf /"
          then some "rm -rf / (would destroy entire filesystem)" else none)
        (fun _ => ["rm with force/recursive flags"])
        "rm -rf /" =
      { safe := false, blocked := true, warnings := [],
        blocked_reason := "rm -rf / (would destroy entire filesystem)" } :=
  (command_safety_block_and_scratch _ _ "rm -rf /").1
    "rm -rf / (would destroy entire filesystem)" (by rfl)

/-! ## C6: local runner stdout parsing (corrected) -/

/-- C6 counterexample: a stdout whose prefix is a valid JSON object but
which carries trailing text is not parsed (the first JSON object does not
win); the whole stdout is wrapped instead and changed stays false. -/
theorem local_stdout_first_json_counterexample :
    loads "\x7b\"changed\": true\x7d" = some (.obj [("changed", .bool true)])
    ∧ localRunParse "\x7b\"changed\": true\x7d extra" =
        .success (.obj [("stdout", .str "\x7b\"changed\": true\x7d extra")])
          (.bool false) :=
  ⟨rfl, rfl⟩

/-- C6 amended: the local runner uses the parsed JSON only when the entire
stdout is one valid JSON document; when it is an object it becomes the
output with changed taken from its changed field (default false); when the
stdout is not entirely valid JSON it is wrapped under a stdout key and the
execution still succeeds with changed false. -/
theorem local_stdout_whole_json_parse (s : String) :
    (∀ kvs, loads s = some (.obj kvs) →
        localRunParse s =
          .success (.obj kvs) ((dictGet kvs "changed").getD (.bool false)))
    ∧ (loads s = none →
        localRunParse s = .success (.obj [("stdout", .str s)]) (.bool false)) := by
  constructor
  · intro kvs h
    simp [localRunParse, h]
  · intro h
    simp [localRunParse, h]

/-- Witness for C6 at a non-JSON stdout. -/
theorem local_stdout_whole_json_parse_witness :
    loads "pong" = none
    ∧ localRunParse "pong" = .success (.obj [("stdout", .str "pong")]) (.bool false) :=
  ⟨rfl, (local_stdout_whole_json_parse "pong").2 rfl⟩

/-! ## C9: wait_for_ssh timing (corrected) -/

theorem wfsLoop_elapsed_le (timeout sleepT ct : Nat) :
    ∀ (attempts : List (Nat × Bool)) (t : Nat) (r : WfsOutcome),
      (∀ a ∈ attempts, a.1 ≤ ct) → t ≤ timeout + sleepT →
      wfsLoop timeout sleepT attempts t = some r →
      elapsedOf r ≤ timeout + sleepT + ct := by
  intro attempts
  induction attempts with
  | nil =>
    intro t r _ _ h
    simp [wfsLoop] at h
  | cons a rest ih =>
    intro t r hct ht h
    obtain ⟨d, success⟩ := a
    have hd : d ≤ ct := hct (d, success) (List.mem_cons_self _ _)
    simp only [wfsLoop] at h
    by_cases hs : success = true
    · rw [if_pos hs] at h
      simp only [Option.some.injEq] at h
      rw [← h]
      simp only [elapsedOf]
      omega
    · rw [if_neg hs] at h
      by_cases hto : timeout ≤ t + d
      · rw [if_pos hto] at h
        simp only [Option.some.injEq] at h
        rw [← h]
        simp only [elapsedOf]
        omega
      · rw [if_neg hto] at h
        exact ih (t + d + sleepT) r
          (fun a ha => hct a (List.mem_cons_of_mem _ ha)) (by omega) h

theorem wfsLoop_all_fail (timeout sleepT : Nat) :
    ∀ (attempts : List (Nat × Bool)) (t : Nat) (r : WfsOutcome),
      (∀ a ∈ attempts, a.2 = false) →
      wfsLoop timeout sleepT attempts t = some r →
      ∃ e, r = .timeoutErr e := by
  intro attempts
  induction attempts with
  | nil =>
    intro t r _ h
    simp [wfsLoop] at h
  | cons a rest ih =>
    intro t r hf h
    obtain ⟨d, success⟩ := a
    have hs : success = false := hf (d, success) (List.mem_cons_self _ _)
    simp only [wfsLoop, hs] at h
    by_cases hto : timeout ≤ t + d
    · rw [if_pos hto] at h
      have h3 : WfsOutcome.timeoutErr (t + d) = r := by simpa using h
      exact ⟨t + d, h3.symm⟩
    · rw [if_neg hto] at h
      exact ih (t + d + sleepT) r (fun a ha => hf a (List.mem_cons_of_mem _ ha)) h

/-- C9 amended: with every connection attempt bounded by connect_timeout,
wait_for_ssh returns no sooner than delay and no later than
delay + timeout + sleep + connect_timeout (the claimed bound without
connect_timeout fails; see the counterexample); a success returns the
elapsed dict (changed false) with the total being delay plus the elapsed
value, and a trace that never connects ends in a TimeoutError. -/
theorem wait_for_ssh_time_bounds (timeout delay sleepT ct : Nat)
    (attempts : List (Nat × Bool)) (r : WfsOutcome) (total : Nat)
    (hct : ∀ a ∈ attempts, a.1 ≤ ct)
    (h : waitForSsh timeout delay sleepT attempts = some (r, total)) :
    delay ≤ total
    ∧ total ≤ delay + timeout + sleepT + ct
    ∧ (∀ e, r = .ok e → total = delay + e)
    ∧ ((∀ a ∈ attempts, a.2 = false) → ∃ e, r = .timeoutErr e) := by
  unfold waitForSsh at h
  cases hw : wfsLoop timeout sleepT attempts 0 with
  | none => rw [hw] at h; simp at h
  | some r0 =>
    rw [hw] at h
    simp only [Option.map_some', Option.some.injEq, Prod.mk.injEq] at h
    obtain ⟨h1, h2⟩ := h
    subst h1
    have hb := wfsLoop_elapsed_le timeout sleepT ct attempts 0 r0 hct (by omega) hw
    refine ⟨by omega, by omega, ?_, ?_⟩
    · intro e he
      subst he
      simp only [elapsedOf] at h2
      omega
    · intro hfail
      exact wfsLoop_all_fail timeout sleepT attempts 0 r0 hfail hw

/-- C9 counterexample: ten instant refusals followed by one attempt that
takes the full 5-second connect timeout make the call last 15 seconds with
delay 0, timeout 10, sleep 1 — above the claimed bound
delay + timeout + sleep = 11. -/
theorem wait_for_ssh_bound_counterexample :
    (∀ a ∈ slowFinalAttemptTrace, a.1 ≤ 5)
    ∧ waitForSsh 10 0 1 slowFinalAttemptTrace = some (.timeoutErr 15, 15)
    ∧ 0 + 10 + 1 < 15 :=
  ⟨by decide, by rfl, by norm_num⟩

/-- Witness for C9 at a concrete trace that connects on the second try. -/
theorem wait_for_ssh_time_bounds_witness :
    2 ≤ 3 ∧ 3 ≤ 2 + 10 + 1 + 5 := by
  have h := wait_for_ssh_time_bounds 10 2 1 5 [(0, false), (0, true)] (.ok 1) 3
    (by decide) (by rfl)
  exact ⟨h.1, h.2.1⟩

/-! ## C7: State.get resource precedence (corrected) -/

/-- C7 counterexample: in a state whose resource record named x is the
empty object while a host x also exists, get returns the host record even
though a resource named x exists, because Python or falls through on the
falsy empty dict — resources are not always consulted first. -/
theorem state_get_falsy_resource_counterexample :
    has_resource emptyResourceStateData "x" = true
    ∧ get_resource emptyResourceStateData "x" = some (.obj [])
    ∧ stateGet emptyResourceStateData "x" =
        some (.obj [("ansible_host", .str "10.0.0.1")])
    ∧ stateGet emptyResourceStateData "x" ≠ get_resource emptyResourceStateData "x" := by
  refine ⟨rfl, rfl, rfl, ?_⟩
  intro h
  rw [show stateGet emptyResourceStateData "x" =
        some (.obj [("ansible_host", .str "10.0.0.1")]) from rfl,
      show get_resource emptyResourceStateData "x" = some (.obj []) from rfl] at h
  simp at h

/-- C7 amended: get returns the resource record whenever a resource with
that name exists and its record is truthy (for object records: non-empty);
when no resource entry exists, or its record is falsy, the host lookup
result is returned. -/
theorem state_get_resource_first_truthy (data : Json) (name : String) :
    (∀ kvs, get_resource data name = some (.obj kvs) → kvs ≠ [] →
        stateGet data name = some (.obj kvs))
    ∧ (get_resource data name = none →
        stateGet data name = get_host data name)
    ∧ (pyTruthyOpt (get_resource data name) = false →
        stateGet data name = get_host data name) := by
  refine ⟨fun kvs h hne => ?_, fun h => ?_, fun h => ?_⟩
  · unfold stateGet pyOrOpt
    rw [h]
    simp [pyTruthyOpt, pyTruthy, hne]
  · simp [stateGet, pyOrOpt, pyTruthyOpt, h]
  · simp [stateGet, pyOrOpt, h]

/-- Witness for C7 at a non-empty resource record. -/
theorem state_get_resource_first_truthy_witness :
    stateGet (.obj [("resources", .obj [("y", .obj [("created_at", .str "1")])])]) "y" =
      some (.obj [("created_at", .str "1")]) :=
  (state_get_resource_first_truthy
      (.obj [("resources", .obj [("y", .obj [("created_at", .str "1")])])]) "y").1
    [("created_at", .str "1")] rfl (by simp)

/-! ## State step lemmas shared by C4 and C8 -/

theorem stepState_saved_main (data : Json) (fs : FS) (op : StOp) (t : Nat)
    (h : (stepState data fs op t).2.2.2 = true) :
    (stepState data fs op t).2.1.main =
      some (dumps2 (stepState data fs op t).1 ++ "\n") := by
  unfold stepState at h ⊢
  by_cases hr : (applyOp data op t).2
  · simp only [hr, if_true]
    simp [stateSave, write_state_file, applyFsActions, applyFsAction]
  · simp [hr] at h

theorem write_actions_atomic (fs : FS) (c : String) (k : Nat) :
    (applyFsActions fs ([FsAction.writeTemp c, .fsyncTemp, .renameTemp].take k)).main
        = fs.main
    ∨ (applyFsActions fs ([FsAction.writeTemp c, .fsyncTemp, .renameTemp].take k)).main
        = some c := by
  match k with
  | 0 => left; rfl
  | 1 => left; rfl
  | 2 => left; rfl
  | n + 3 =>
    right
    simp [List.take_succ_cons, applyFsActions, applyFsAction]

theorem jget_jset_self (kvs : List (String × Json)) (k : String) (v : Json) :
    jget (jset (Json.obj kvs) k v) k = some v := by
  simp [jget, jset, dictGet_dictSet_self]

theorem applyOp_obj (kvs : List (String × Json)) (op : StOp) (t : Nat) :
    ∃ kvs2, (applyOp (Json.obj kvs) op t).1 = Json.obj kvs2 := by
  cases op with
  | addHost name ah au port groups extra =>
    by_cases hh : (jget (Json.obj kvs) "hosts").isNone <;>
      simp [applyOp, hh, jset]
  | addResource name d =>
    by_cases hh : (jget (Json.obj kvs) "resources").isNone <;>
      simp [applyOp, hh, jset]
  | updateResource name d =>
    simp only [applyOp]
    split
    · split
      · simp [jset]
      · exact ⟨kvs, rfl⟩
      · exact ⟨kvs, rfl⟩
    · exact ⟨kvs, rfl⟩
  | removeHost name =>
    simp only [applyOp]
    split
    · split
      · simp [jset]
      · exact ⟨kvs, rfl⟩
    · exact ⟨kvs, rfl⟩
  | removeResource name =>
    simp only [applyOp]
    split
    · split
      · simp [jset]
      · exact ⟨kvs, rfl⟩
    · exact ⟨kvs, rfl⟩

/-! ## C4: atomic persistence of mutations -/

/-- C4: after every successful State mutation the target file holds
exactly the in-memory state dumped with indent 2 plus a trailing newline;
the write is temp-write, fsync, atomic rename, and every intermediate step
leaves the target either untouched or fully new (no partial file); the
written state carries updated_at stamped with the mutation clock, so a
monotone clock makes updated_at advance on every write. -/
theorem state_mutation_atomic_write (data : Json) (fs : FS) (op : StOp) (t : Nat)
    (kvs0 : List (String × Json)) (hobj : data = Json.obj kvs0)
    (hsaved : (stepState data fs op t).2.2.2 = true) :
    (stepState data fs op t).2.1.main =
      some (dumps2 (stepState data fs op t).1 ++ "\n")
    ∧ (stepState data fs op t).2.2.1 =
        [FsAction.writeTemp (dumps2 (stepState data fs op t).1 ++ "\n"),
         FsAction.fsyncTemp, FsAction.renameTemp]
    ∧ (∀ k, (applyFsActions fs ((stepState data fs op t).2.2.1.take k)).main = fs.main
          ∨ (applyFsActions fs ((stepState data fs op t).2.2.1.take k)).main =
              some (dumps2 (stepState data fs op t).1 ++ "\n"))
    ∧ jget (stepState data fs op t).1 "updated_at" = some (.str (nowStr t)) := by
  subst hobj
  by_cases hr : (applyOp (Json.obj kvs0) op t).2
  · obtain ⟨kvs1, hk1⟩ := applyOp_obj kvs0 op t
    have hstep : stepState (Json.obj kvs0) fs op t =
        ((stateSave (applyOp (Json.obj kvs0) op t).1 t).1,
         applyFsActions fs (stateSave (applyOp (Json.obj kvs0) op t).1 t).2,
         (stateSave (applyOp (Json.obj kvs0) op t).1 t).2, true) := by
      simp [stepState, hr]
    rw [hstep]
    refine ⟨?_, ?_, ?_, ?_⟩
    · simp [stateSave, write_state_file, applyFsActions, applyFsAction]
    · simp [stateSave, write_state_file]
    · intro k
      have h2 : (stateSave (applyOp (Json.obj kvs0) op t).1 t).2 =
          [FsAction.writeTemp
            (dumps2 (stateSave (applyOp (Json.obj kvs0) op t).1 t).1 ++ "\n"),
           FsAction.fsyncTemp, FsAction.renameTemp] := by
        simp [stateSave, write_state_file]
      rw [h2]
      exact write_actions_atomic fs _ k
    · rw [show (stateSave (applyOp (Json.obj kvs0) op t).1 t).1 =
            jset (applyOp (Json.obj kvs0) op t).1 "updated_at"
              (.str (nowStr t)) from rfl]
      rw [hk1]
      exact jget_jset_self kvs1 "updated_at" (.str (nowStr t))
  · simp [stepState, hr] at hsaved

/-- Witness for C4: adding a resource to the empty state persists the
serialized document. -/
theorem state_mutation_atomic_write_witness :
    (stepState (emptyState 0) ⟨none, none⟩ (.addResource "srv" []) 1).2.1.main =
      some (dumps2 (stepState (emptyState 0) ⟨none, none⟩ (.addResource "srv" []) 1).1
        ++ "\n") := by
  have h := state_mutation_atomic_write (emptyState 0) ⟨none, none⟩
    (.addResource "srv" []) 1
    [("version", .num 1), ("created_at", .str (nowStr 0)),
     ("updated_at", .str (nowStr 0)), ("hosts", .obj []), ("resources", .obj [])]
    rfl rfl
  exact h.1

/-! ## C8: corrupt state file recovery -/

/-- C8 counterexample: a state file holding a single space exists and its
contents fail to parse as JSON, yet loading takes the blank-content branch
of read_state_file and returns the empty state with NO warning — the
claim's logs-a-warning conjunct is false there. -/
theorem state_blank_file_no_warning_counterexample :
    loads " " = none
    ∧ (stateInitFs ⟨some " ", none⟩ 0).1 = emptyState 0
    ∧ (stateInitFs ⟨some " ", none⟩ 0).2.2 = false :=
  ⟨rfl, rfl, rfl⟩

/-- C8 amended: when the configured state file exists but does not parse
as JSON, or cannot be read, loading the State proceeds with the fresh
empty state (version 1, empty hosts and resources) instead of failing; a
warning is logged when the file is unreadable or its non-blank contents
fail to parse, while an empty or whitespace-only file is treated as blank
silently, with no warning; the load leaves the file on disk untouched, and
the next successful mutation overwrites it with the serialized current
state. -/
theorem state_corrupt_file_fresh_start (c : String) (t t2 : Nat) (fs : FS)
    (op : StOp) (hmain : fs.main = some c) (hparse : loads c = none) :
    (stateInitFs fs t).1 = emptyState t
    ∧ (pyStrip c ≠ "" → (stateInitFs fs t).2.2 = true)
    ∧ (pyStrip c = "" → (stateInitFs fs t).2.2 = false)
    ∧ read_state_file .unreadable t = (emptyState t, true)
    ∧ (stateInitFs fs t).2.1 = fs
    ∧ ((stepState (stateInitFs fs t).1 fs op t2).2.2.2 = true →
        (stepState (stateInitFs fs t).1 fs op t2).2.1.main =
          some (dumps2 (stepState (stateInitFs fs t).1 fs op t2).1 ++ "\n")) := by
  by_cases hb : pyStrip c = ""
  · have h1 : stateInitFs fs t = (emptyState t, fs, false) := by
      simp [stateInitFs, hmain, read_state_file, hb]
    exact ⟨by rw [h1], fun hne => absurd hb hne, fun _ => by rw [h1], rfl,
      by rw [h1], fun hs => stepState_saved_main _ _ _ _ hs⟩
  · have h1 : stateInitFs fs t = (emptyState t, fs, true) := by
      simp [stateInitFs, hmain, read_state_file, hb, hparse]
    exact ⟨by rw [h1], fun _ => by rw [h1], fun he => absurd he hb, rfl,
      by rw [h1], fun hs => stepState_saved_main _ _ _ _ hs⟩

/-- Witness for C8 at a concrete corrupt (non-blank) file. -/
theorem state_corrupt_file_fresh_start_witness :
    (stateInitFs ⟨some "\x7bbad", none⟩ 5).1 = emptyState 5
    ∧ (stateInitFs ⟨some "\x7bbad", none⟩ 5).2.2 = true := by
  have h := state_corrupt_file_fresh_start "\x7bbad" 5 6 ⟨some "\x7bbad", none⟩
    (.removeHost "x") rfl rfl
  exact ⟨h.1, h.2.1 (by decide)⟩

/-! ## C3: argument merge precedence -/

theorem has_refs_false_no_ref (ma : Option (List (String × Arg))) (k : String)
    (r : SymRef) (h : has_refs ma = false) :
    dictGet (ma.getD []) k ≠ some (.ref r) := by
  intro hget
  cases ma with
  | none => simp [dictGet] at hget
  | some l =>
    simp only [Option.getD] at hget
    have hmem := dictGet_mem hget
    rw [show has_refs (some l) =
        (if l.isEmpty then false else l.any (fun p => isRefArg p.2)) from rfl] at h
    by_cases hl : l.isEmpty
    · have hnil : l = [] := List.isEmpty_iff.mp hl
      subst hnil
      simp at hmem
    · rw [if_neg hl] at h
      have hany : l.any (fun p => isRefArg p.2) = true :=
        List.any_eq_true.mpr ⟨(k, .ref r), hmem, rfl⟩
      rw [hany] at h
      cases h

theorem derefAll_dictGet (vars : Json) :
    ∀ (l res : List (String × Arg)), derefAll vars l = .ok res → ∀ k : String,
      (∀ a, dictGet l k = some a →
        ∃ b, derefArg vars a = .ok b ∧ dictGet res k = some b)
      ∧ (dictGet l k = none → dictGet res k = none) := by
  intro l
  induction l with
  | nil =>
    intro res h k
    have hres : ([] : List (String × Arg)) = res := by
      simpa [derefAll] using h
    rw [← hres]
    exact ⟨fun a ha => by simp [dictGet] at ha, fun _ => rfl⟩
  | cons p ps ih =>
    intro res h k
    rw [show derefAll vars (p :: ps) =
        (derefArg vars p.2).bind (fun a => (derefAll vars ps).bind
          (fun rest => Except.ok ((p.1, a) :: rest))) from rfl] at h
    cases hda : derefArg vars p.2 with
    | error e => rw [hda] at h; simp [Except.bind] at h
    | ok a =>
      cases hdr : derefAll vars ps with
      | error e => rw [hda, hdr] at h; simp [Except.bind] at h
      | ok rest =>
        rw [hda, hdr] at h
        simp only [Except.bind, Except.ok.injEq] at h
        rw [← h]
        constructor
        · intro a2 hget
          rw [dictGet_cons] at hget
          by_cases hk : p.1 == k
          · rw [if_pos hk] at hget
            simp only [Option.some.injEq] at hget
            refine ⟨a, ?_, ?_⟩
            · rw [← hget]
              exact hda
            · rw [dictGet_cons, if_pos hk]
          · rw [if_neg hk] at hget
            obtain ⟨b, hb1, hb2⟩ := ((ih rest hdr k).1) a2 hget
            exact ⟨b, hb1, by rw [dictGet_cons, if_neg hk]; exact hb2⟩
        · intro hget
          rw [dictGet_cons] at hget
          by_cases hk : p.1 == k
          · rw [if_pos hk] at hget
            cases hget
          · rw [if_neg hk] at hget
            rw [dictGet_cons, if_neg hk]
            exact (ih rest hdr k).2 hget

/-- C3: for every host, module args (possibly with Ref leaves) and host
args, a successful merge maps every key of the host-specific overrides to
its override value; every remaining Ref-valued key to the dereference of
that Ref against the host vars; and every remaining key to its literal
value — precedence low to high: literals, dereferenced refs, host-specific
overrides.  (Keys of a Python dict are unique, hence the Nodup premise on
the override keys.) -/
theorem merge_arguments_precedence (host : HostConfig)
    (module_args : Option (List (String × Arg)))
    (host_args : Option (List (String × List (String × Json))))
    (result : List (String × Arg))
    (hnodup : ((host_specific_of host_args host.name).map Prod.fst).Nodup)
    (hmerge : merge_arguments host module_args host_args = .ok result) :
    (∀ k v, dictGet (host_specific_of host_args host.name) k = some v →
        dictGet result k = some (.lit v))
    ∧ (∀ k r, dictGet (host_specific_of host_args host.name) k = none →
        dictGet (module_args.getD []) k = some (.ref r) →
        ∃ v, derefRef host.vars r = .ok v ∧ dictGet result k = some (.lit v))
    ∧ (∀ k v, dictGet (host_specific_of host_args host.name) k = none →
        dictGet (module_args.getD []) k = some (.lit v) →
        dictGet result k = some (.lit v)) := by
  have hchar : merge_arguments host module_args host_args =
      (if (host_specific_of host_args host.name).isEmpty
          && !(has_refs module_args) then
        Except.ok (module_args.getD [])
      else
        match (if has_refs module_args then derefAll host.vars (module_args.getD [])
               else Except.ok (module_args.getD [])) with
        | .error e => .error e
        | .ok merged =>
            .ok (dictUpdate merged ((host_specific_of host_args host.name).map
              (fun p => (p.1, Arg.lit p.2))))) := rfl
  rw [hchar] at hmerge
  have hkeys : (((host_specific_of host_args host.name).map
      (fun p => (p.1, Arg.lit p.2))).map Prod.fst) =
      (host_specific_of host_args host.name).map Prod.fst := by
    rw [List.map_map]
    rfl
  by_cases hfast : (host_specific_of host_args host.name).isEmpty
      && !(has_refs module_args)
  · rw [if_pos hfast] at hmerge
    simp only [Except.ok.injEq] at hmerge
    have hemp : (host_specific_of host_args host.name).isEmpty = true := by
      cases he : (host_specific_of host_args host.name).isEmpty
      · rw [he] at hfast
        simp at hfast
      · rfl
    have hnr : has_refs module_args = false := by
      cases hr2 : has_refs module_args
      · rfl
      · rw [hr2] at hfast
        simp at hfast
    have hsnil : host_specific_of host_args host.name = [] :=
      List.isEmpty_iff.mp hemp
    refine ⟨fun k v hget => ?_, fun k r hn hget => ?_, fun k v hn hget => ?_⟩
    · rw [hsnil] at hget
      simp [dictGet] at hget
    · exact absurd hget (has_refs_false_no_ref _ _ _ hnr)
    · rw [← hmerge]
      exact hget
  · rw [if_neg hfast] at hmerge
    by_cases hR : has_refs module_args
    · rw [if_pos hR] at hmerge
      cases hda : derefAll host.vars (module_args.getD []) with
      | error e =>
        rw [hda] at hmerge
        simp at hmerge
      | ok merged =>
        rw [hda] at hmerge
        have hmerge2 : dictUpdate merged ((host_specific_of host_args host.name).map
            (fun p => (p.1, Arg.lit p.2))) = result := by
          simpa using hmerge
        rw [← hmerge2]
        refine ⟨fun k v hget => ?_, fun k r hn hget => ?_, fun k v hn hget => ?_⟩
        · rw [dictGet_dictUpdate _ _ _ (hkeys ▸ hnodup), dictGet_map_val, hget]
          rfl
        · have hlits : dictGet ((host_specific_of host_args host.name).map
              (fun p => (p.1, Arg.lit p.2))) k = none := by
            rw [dictGet_map_val, hn]
            rfl
          have hres : dictGet (dictUpdate merged
              ((host_specific_of host_args host.name).map
                (fun p => (p.1, Arg.lit p.2)))) k = dictGet merged k := by
            rw [dictGet_dictUpdate _ _ _ (hkeys ▸ hnodup), hlits]
          obtain ⟨b, hb1, hb2⟩ :=
            ((derefAll_dictGet host.vars _ merged hda k).1) (.ref r) hget
          have hb1m : Except.map Arg.lit (derefRef host.vars r) = Except.ok b := hb1
          cases hdr : derefRef host.vars r with
          | error e =>
            rw [hdr] at hb1m
            simp [Except.map] at hb1m
          | ok v2 =>
            rw [hdr] at hb1m
            simp only [Except.map, Except.ok.injEq] at hb1m
            exact ⟨v2, rfl, by rw [hres, hb2, ← hb1m]⟩
        · have hlits : dictGet ((host_specific_of host_args host.name).map
              (fun p => (p.1, Arg.lit p.2))) k = none := by
            rw [dictGet_map_val, hn]
            rfl
          have hres : dictGet (dictUpdate merged
              ((host_specific_of host_args host.name).map
                (fun p => (p.1, Arg.lit p.2)))) k = dictGet merged k := by
            rw [dictGet_dictUpdate _ _ _ (hkeys ▸ hnodup), hlits]
          obtain ⟨b, hb1, hb2⟩ :=
            ((derefAll_dictGet host.vars _ merged hda k).1) (.lit v) hget
          have hb1m : Except.ok (Arg.lit v) = Except.ok b := hb1
          simp only [Except.ok.injEq] at hb1m
          rw [hres, hb2, ← hb1m]
    · rw [if_neg hR] at hmerge
      have hnr : has_refs module_args = false := by
        cases hr2 : has_refs module_args
        · rfl
        · exact absurd hr2 hR
      have hmerge2 : dictUpdate (module_args.getD [])
          ((host_specific_of host_args host.name).map
            (fun p => (p.1, Arg.lit p.2))) = result := by
        simpa using hmerge
      rw [← hmerge2]
      refine ⟨fun k v hget => ?_, fun k r hn hget => ?_, fun k v hn hget => ?_⟩
      · rw [dictGet_dictUpdate _ _ _ (hkeys ▸ hnodup), dictGet_map_val, hget]
        rfl
      · exact absurd hget (has_refs_false_no_ref _ _ _ hnr)
      · have hlits : dictGet ((host_specific_of host_args host.name).map
            (fun p => (p.1, Arg.lit p.2))) k = none := by
          rw [dictGet_map_val, hn]
          rfl
        rw [dictGet_dictUpdate _ _ _ (hkeys ▸ hnodup), hlits]
        exact hget

/-- Witness for C3 at the argument-resolution scenario of the spec: host
vars give a config.src_dir ref, host-specific args add dest. -/
theorem merge_arguments_precedence_witness :
    dictGet [("src", Arg.lit (.str "/opt/app")), ("mode", Arg.lit (.str "0755")),
             ("dest", Arg.lit (.str "/var/www"))] "dest" =
      some (.lit (.str "/var/www")) :=
  (merge_arguments_precedence
      ⟨"web1", .obj [("config", .obj [("src_dir", .str "/opt/app")])]⟩
      (some [("src", .ref ⟨"config", ["src_dir"]⟩), ("mode", .lit (.str "0755"))])
      (some [("web1", [("dest", .str "/var/www")])])
      [("src", .lit (.str "/opt/app")), ("mode", .lit (.str "0755")),
       ("dest", .lit (.str "/var/www"))]
      (by decide) (by rfl)).1 "dest" (.str "/var/www") rfl

end Ftl2
